import Mathlib

/-!
Verification development for the email-unsubscriber open OAuth
token-exchange worker.

The source is a small TypeScript Cloudflare worker consisting of
`lib/validation.ts` (wildcard allowlist matching with a regex cache),
`lib/oauth-common.ts` (the provider-generic code-for-token exchange),
`lib/oauth-google.ts` / `lib/oauth-microsoft.ts` (provider configs),
`lib/user-info.ts` (backend enrichment client) and `src/index.ts`
(routing and the token-exchange orchestrator).

Shallow embedding conventions:
* TypeScript strings are Lean `String`s; a missing / `undefined` string
  field is represented by `""` exactly where the source only tests
  truthiness (`!s`), and by `Option String` where the source
  distinguishes absence.
* The platform pieces the source leans on (`new RegExp` on the escaped
  pattern, `new URL`, `JSON.parse`, outbound `fetch`) are modelled
  explicitly: the regex fragment the code can build is given its exact
  JavaScript semantics (including `.` not matching line terminators),
  `new URL` is modelled from the WHATWG URL standard behaviour the code
  depends on (host lowercasing, default-port elision), and `fetch` /
  `JSON.parse` outcomes are supplied by a per-request `World` record so
  theorems quantify over every possible network/parse behaviour.
* `throw`/`try`/`catch` become explicit sum results.
-/

namespace OAuthWorker

/-! ## Pattern matcher (`lib/validation.ts`, `matchesPattern`) -/

/-- The character class escaped by `matchesPattern`:
`pattern.replace(/[.*+?^$\x7b\x7d()|[\]\\]/g, '\\$&')` escapes exactly
these regex metacharacters. -/
def isRegexMeta (c : Char) : Bool :=
  c == '.' || c == '*' || c == '+' || c == '?' || c == '^' || c == '$' ||
  c == '\x7b' || c == '\x7d' || c == '(' || c == ')' || c == '|' ||
  c == '[' || c == ']' || c == '\\'

/-- One step of the escaping replace: a metacharacter `c` becomes `\c`,
any other character is kept. -/
def escapeRegexChar (c : Char) : List Char :=
  if isRegexMeta c then ['\\', c] else [c]

/-- `pattern.replace(/[.*+?^$\x7b\x7d()|[\]\\]/g, '\\$&')` over the
character list of the pattern. -/
def escList : List Char → List Char
  | [] => []
  | c :: cs => escapeRegexChar c ++ escList cs

/-- `escaped.replace(/\\\*/g, '.*')`: the left-to-right, non-overlapping
replacement of every two-character occurrence `\*` by `.*`. -/
def replaceEscStar : List Char → List Char
  | [] => []
  | [c] => [c]
  | c1 :: c2 :: rest =>
      if c1 = '\\' ∧ c2 = '*' then '.' :: '*' :: replaceEscStar rest
      else c1 :: replaceEscStar (c2 :: rest)

/-- The full regex source string built by `matchesPattern`:
`'^' + escaped.replace(/\\\*/g, '.*') + '$'`. -/
def buildRegexPattern (pattern : String) : List Char :=
  '^' :: (replaceEscStar (escList pattern.data) ++ ['$'])

/-- Atom of the JavaScript regex fragment `matchesPattern` can build:
a literal character or the dot. -/
inductive RAtom where
  | lit (c : Char)
  | dot
  deriving DecidableEq, Repr

/-- A regex piece: an atom, or an atom under a `*` quantifier. -/
inductive RPiece where
  | once (a : RAtom)
  | star (a : RAtom)
  deriving DecidableEq, Repr

/-- JavaScript line terminators: without the `s` flag, `.` matches any
character except these. -/
def isLineTerm (c : Char) : Bool :=
  c == '\n' || c == '\r' || c == '\u2028' || c == '\u2029'

/-- JavaScript semantics of a single atom against one character. -/
def atomMatches : RAtom → Char → Bool
  | RAtom.lit c, d => c == d
  | RAtom.dot, d => !isLineTerm d

/-- Full (anchored) match of a piece sequence against a character list:
the language semantics of the `^...$` regex built by `matchesPattern`. -/
def piecesMatch : List RPiece → List Char → Bool
  | [], cs => cs.isEmpty
  | RPiece.once _ :: _, [] => false
  | RPiece.once a :: ps, c :: cs => atomMatches a c && piecesMatch ps cs
  | RPiece.star a :: ps, cs =>
      (List.range (cs.length + 1)).any
        (fun k => (cs.take k).all (atomMatches a) && piecesMatch ps (cs.drop k))

/-- Lexer token: an atom, or a `*` quantifier mark. -/
inductive RTokn where
  | atom (a : RAtom)
  | starMark
  deriving DecidableEq, Repr

/-- Lexer for the regex fragment reachable from `buildRegexPattern`:
escaped metacharacters become literal atoms, `.` the dot atom, `*` a
quantifier mark; an unescaped metacharacter other than `.`/`*`, or a
trailing backslash, is outside the fragment (`none`). -/
def lexRegex : List Char → Option (List RTokn)
  | [] => some []
  | c :: rest =>
      if c = '\\' then
        match rest with
        | [] => none
        | d :: rest2 =>
            if isRegexMeta d then
              (lexRegex rest2).map (fun ts => RTokn.atom (RAtom.lit d) :: ts)
            else none
      else if c = '*' then (lexRegex rest).map (fun ts => RTokn.starMark :: ts)
      else if c = '.' then
        (lexRegex rest).map (fun ts => RTokn.atom RAtom.dot :: ts)
      else if isRegexMeta c then none
      else (lexRegex rest).map (fun ts => RTokn.atom (RAtom.lit c) :: ts)

/-- Attach each `*` mark to the atom before it (JavaScript rejects a
quantifier with nothing to repeat, hence `none` for a leading `*`). -/
def groupPieces : List RTokn → Option (List RPiece)
  | [] => some []
  | RTokn.starMark :: _ => none
  | [RTokn.atom a] => some [RPiece.once a]
  | RTokn.atom a :: RTokn.starMark :: rest =>
      (groupPieces rest).map (fun ps => RPiece.star a :: ps)
  | RTokn.atom a :: RTokn.atom b :: rest =>
      (groupPieces (RTokn.atom b :: rest)).map (fun ps => RPiece.once a :: ps)

/-- Parser for the regex fragment reachable from `buildRegexPattern`
(escaped metacharacters, `.`, `*` quantifiers), with JavaScript
semantics; anything outside the fragment is rejected (`none`), matching
the guarded `new RegExp` call whose failure makes `matchesPattern`
return `false`. -/
def parsePieces (s : List Char) : Option (List RPiece) :=
  (lexRegex s).bind groupPieces

/-- `new RegExp(regexPattern)` for the strings `buildRegexPattern`
produces: a leading `^` anchor, a trailing `$` anchor, and the piece
sequence in between. -/
def parseRegex (s : List Char) : Option (List RPiece) :=
  match s with
  | '^' :: rest =>
      if rest.getLast? = some '$' then parsePieces rest.dropLast else none
  | _ => none

/-- `matchesPattern(uri, pattern)` from `lib/validation.ts`, with the
cache dropped (see `matchesPatternCached` for the cached version; the
uncached semantics is what a cold cache computes). -/
def matchesPattern (uri : String) (pattern : String) : Bool :=
  match parseRegex (buildRegexPattern pattern) with
  | some r => piecesMatch r uri.data
  | none => false

/-- The module-level `regexCache : Map<string, RegExp>`, as an
association list from pattern text to compiled regex. -/
abbrev RegexCache := List (String × List RPiece)

/-- `matchesPattern` with the cache made explicit: look the pattern up,
compile and insert on a miss, and return `false` without caching when
compilation fails (the `catch` branch). -/
def matchesPatternCached (cache : RegexCache) (uri pattern : String) :
    Bool × RegexCache :=
  match cache.lookup pattern with
  | some r => (piecesMatch r uri.data, cache)
  | none =>
      match parseRegex (buildRegexPattern pattern) with
      | some r => (piecesMatch r uri.data, (pattern, r) :: cache)
      | none => (false, cache)

/-! ## Redirect / origin validators (`lib/validation.ts`) -/

/-- `allowedUris.split(',')`: split at every comma, keeping empty
fields. -/
def splitCommaAux : List Char → List Char → List String
  | [], acc => [String.mk acc.reverse]
  | ',' :: rest, acc => String.mk acc.reverse :: splitCommaAux rest []
  | c :: rest, acc => splitCommaAux rest (c :: acc)

/-- `s.split(',')`. -/
def splitComma (s : String) : List String := splitCommaAux s.data []

/-- `s.trim()`: strip leading and trailing whitespace. -/
def trimChars (s : String) : String :=
  String.mk
    (((s.data.dropWhile Char.isWhitespace).reverse.dropWhile
        Char.isWhitespace).reverse)

/-- `allowedUris.split(',').map((uri) => uri.trim())`, the pattern list
both validators build from the comma-separated allowlist. -/
def allowlistPatterns (allowedUris : String) : List String :=
  (splitComma allowedUris).map trimChars

/-- `validateRedirectUri` from `lib/validation.ts`: reject the empty
string, then accept iff some trimmed pattern matches (the source's
for-loop with early return is the list `any`). -/
def validateRedirectUri (redirectUri : String) (allowedUris : String) : Bool :=
  if redirectUri = "" then false
  else (allowlistPatterns allowedUris).any
    (fun pattern => matchesPattern redirectUri pattern)

/-- Result of the platform `new URL(...)` as consumed by
`extractOrigin`: the `protocol` (scheme plus `:`) and `host`
(hostname plus `:port` when a non-default port is present). -/
structure UrlParts where
  protocol : String
  host : String
  deriving DecidableEq, Repr

/-- Decimal digits to a number, for port parsing. -/
def digitsToNat (ds : List Char) : Nat :=
  ds.foldl (fun n c => n * 10 + (c.toNat - 48)) 0

/-- Characters this model accepts inside a hostname. -/
def isHostChar (c : Char) : Bool :=
  c.isAlpha || c.isDigit || c == '-' || c == '.' || c == '_' || c == '*'

/-- Modelled from the WHATWG URL Standard: the behaviour of the
platform `new URL(testUrl)` call inside `extractOrigin`, restricted to
the absolute http/https URLs this repository feeds it.  The parts of
the standard the source's correctness turns on are kept: the scheme and
the host are ASCII-lowercased (`domain to ASCII`), and an explicit
default port (80 for http, 443 for https) is elided from `url.host`.
Inputs outside this fragment yield `none` (the `catch` branch of
`extractOrigin`). -/
def urlParse (s : String) : Option UrlParts :=
  let cs := s.data
  let schemeRaw := cs.takeWhile (fun c => c != ':')
  let rest1 := cs.drop schemeRaw.length
  let scheme := schemeRaw.map Char.toLower
  if scheme ≠ "http".data ∧ scheme ≠ "https".data then none
  else
    match rest1 with
    | ':' :: '/' :: '/' :: rest2 =>
        let auth := rest2.takeWhile (fun c => c != '/' && c != '?' && c != '#')
        if auth.any (fun c => c == '@' || c == '[' || c == ']' || c == '\\')
        then none
        else
          let hostRaw := auth.takeWhile (fun c => c != ':')
          let portPart := auth.drop hostRaw.length
          if hostRaw = [] then none
          else if !(hostRaw.all isHostChar) then none
          else
            let host := hostRaw.map Char.toLower
            match portPart with
            | [] => some ⟨String.mk scheme ++ ":", String.mk host⟩
            | ':' :: pd =>
                if pd = [] then some ⟨String.mk scheme ++ ":", String.mk host⟩
                else if !(pd.all Char.isDigit) then none
                else
                  let port := digitsToNat pd
                  if port > 65535 then none
                  else if (scheme = "http".data ∧ port = 80) ∨
                      (scheme = "https".data ∧ port = 443) then
                    some ⟨String.mk scheme ++ ":", String.mk host⟩
                  else
                    some ⟨String.mk scheme ++ ":",
                      String.mk host ++ ":" ++ Nat.repr port⟩
            | _ => none
    | _ => none

/-- `urlOrPattern.replace(/\*/g, 'WILDCARD')`. -/
def starToWildcard (s : String) : String :=
  String.mk (s.data.flatMap (fun c => if c = '*' then "WILDCARD".data else [c]))

/-- `.replace(/WILDCARD/g, '*')`: left-to-right, non-overlapping,
case-sensitive replacement of the literal `WILDCARD` by `*`. -/
def wildcardToStarAux : List Char → List Char
  | 'W' :: 'I' :: 'L' :: 'D' :: 'C' :: 'A' :: 'R' :: 'D' :: rest =>
      '*' :: wildcardToStarAux rest
  | c :: rest => c :: wildcardToStarAux rest
  | [] => []

/-- `.replace(/WILDCARD/g, '*')` on a string. -/
def wildcardToStar (s : String) : String := String.mk (wildcardToStarAux s.data)

/-- `extractOrigin` from `lib/validation.ts`: substitute `WILDCARD` for
`*`, parse as a URL, rebuild `protocol + "//" + host`, substitute back. -/
def extractOrigin (urlOrPattern : String) : Option String :=
  let testUrl := starToWildcard urlOrPattern
  match urlParse testUrl with
  | some u => some (wildcardToStar (u.protocol ++ "//" ++ u.host))
  | none => none

/-- `isAllowedOrigin` from `lib/validation.ts`: reject the empty
origin, then accept iff the origin matches the origin-reduction of some
pattern (`patternOrigin && matchesPattern(...)`; the truthiness test
also fails on an empty string). -/
def isAllowedOrigin (origin : String) (allowedUris : String) : Bool :=
  if origin = "" then false
  else (allowlistPatterns allowedUris).any
    (fun pattern =>
      match extractOrigin pattern with
      | some po => if po = "" then false else matchesPattern origin po
      | none => false)

/-! ## Data model (`lib/types.ts`) -/

/-- Opaque JSON blob returned by the enrichment backend; this service
never inspects its shape, so it is modelled as the raw text. -/
abbrev UserInfo := String

/-- Keys of the worker environment (`Env` in `lib/types.ts`). -/
inductive EnvKey where
  | ENVIRONMENT
  | USER_INFO_SERVICE_URL
  | ALLOWED_REDIRECT_URIS
  | GOOGLE_OAUTH_CLIENT_ID
  | GOOGLE_OAUTH_CLIENT_SECRET
  | MICROSOFT_OAUTH_CLIENT_ID
  | MICROSOFT_OAUTH_CLIENT_SECRET
  deriving DecidableEq, Repr

/-- The key's name as a string, used in error messages
(`` `${config.clientIdKey} is not configured` ``). -/
def EnvKey.keyName : EnvKey → String
  | .ENVIRONMENT => "ENVIRONMENT"
  | .USER_INFO_SERVICE_URL => "USER_INFO_SERVICE_URL"
  | .ALLOWED_REDIRECT_URIS => "ALLOWED_REDIRECT_URIS"
  | .GOOGLE_OAUTH_CLIENT_ID => "GOOGLE_OAUTH_CLIENT_ID"
  | .GOOGLE_OAUTH_CLIENT_SECRET => "GOOGLE_OAUTH_CLIENT_SECRET"
  | .MICROSOFT_OAUTH_CLIENT_ID => "MICROSOFT_OAUTH_CLIENT_ID"
  | .MICROSOFT_OAUTH_CLIENT_SECRET => "MICROSOFT_OAUTH_CLIENT_SECRET"

/-- Worker environment bindings (`Env` in `lib/types.ts`).  An unset or
empty binding is `""` (the source only ever tests truthiness). -/
structure Env where
  ENVIRONMENT : String
  USER_INFO_SERVICE_URL : String
  ALLOWED_REDIRECT_URIS : String
  GOOGLE_OAUTH_CLIENT_ID : String
  GOOGLE_OAUTH_CLIENT_SECRET : String
  MICROSOFT_OAUTH_CLIENT_ID : String
  MICROSOFT_OAUTH_CLIENT_SECRET : String
  deriving DecidableEq, Repr

/-- `env[key]` dynamic indexing used by `exchangeCode`. -/
def Env.get (env : Env) : EnvKey → String
  | .ENVIRONMENT => env.ENVIRONMENT
  | .USER_INFO_SERVICE_URL => env.USER_INFO_SERVICE_URL
  | .ALLOWED_REDIRECT_URIS => env.ALLOWED_REDIRECT_URIS
  | .GOOGLE_OAUTH_CLIENT_ID => env.GOOGLE_OAUTH_CLIENT_ID
  | .GOOGLE_OAUTH_CLIENT_SECRET => env.GOOGLE_OAUTH_CLIENT_SECRET
  | .MICROSOFT_OAUTH_CLIENT_ID => env.MICROSOFT_OAUTH_CLIENT_ID
  | .MICROSOFT_OAUTH_CLIENT_SECRET => env.MICROSOFT_OAUTH_CLIENT_SECRET

/-- Incoming body of `POST /oauth/token` (`TokenExchangeRequest`).
A field missing from the posted JSON is `""`, matching the source's
truthiness checks on the unchecked cast. -/
structure TokenExchangeRequest where
  code : String
  redirect_uri : String
  code_verifier : Option String
  provider : String
  deriving DecidableEq, Repr

/-- Provider token response (`TokenExchangeResponse`).  `access_token`
and `id_token` use `""` for absent-or-empty (both are falsy in the
source's checks); `user_info` is absent until enrichment succeeds. -/
structure TokenExchangeResponse where
  access_token : String
  token_type : String
  expires_in : Int
  scope : String
  refresh_token : Option String
  id_token : String
  user_info : Option UserInfo
  deriving DecidableEq, Repr

/-- Error body shape providers return (`OAuthErrorResponse` in
`lib/oauth-common.ts`). -/
structure OAuthErrorResponse where
  error : String
  error_description : String
  deriving DecidableEq, Repr

/-- Provider configuration (`OAuthProviderConfig`). -/
structure OAuthProviderConfig where
  tokenEndpoint : String
  clientIdKey : EnvKey
  clientSecretKey : EnvKey
  providerName : String
  deriving DecidableEq, Repr

/-- `googleConfig` from `lib/oauth-google.ts`. -/
def googleConfig : OAuthProviderConfig :=
  { tokenEndpoint := "https://oauth2.googleapis.com/token"
    clientIdKey := .GOOGLE_OAUTH_CLIENT_ID
    clientSecretKey := .GOOGLE_OAUTH_CLIENT_SECRET
    providerName := "Google" }

/-- `microsoftConfig` from `lib/oauth-microsoft.ts`. -/
def microsoftConfig : OAuthProviderConfig :=
  { tokenEndpoint := "https://login.microsoftonline.com/common/oauth2/v2.0/token"
    clientIdKey := .MICROSOFT_OAUTH_CLIENT_ID
    clientSecretKey := .MICROSOFT_OAUTH_CLIENT_SECRET
    providerName := "Microsoft" }

/-! ## Network / platform model -/

/-- An HTTP response as observed by the worker's outbound `fetch`. -/
structure HttpResponse where
  status : Nat
  body : String
  deriving DecidableEq, Repr

/-- `Response.ok`: status in the 2xx range. -/
def HttpResponse.isOk (r : HttpResponse) : Bool :=
  200 ≤ r.status && r.status < 300

/-- Everything outside the worker that one request can observe: the
response of the provider token endpoint, the response of the enrichment
backend, and the behaviour of the platform `JSON.parse` at each of the
three call sites (`none` = the parse throws / the value does not have
the accessed shape).  Theorems quantify over arbitrary worlds. -/
structure World where
  providerResponse : HttpResponse
  userInfoResponse : HttpResponse
  parseOAuthError : String → Option OAuthErrorResponse
  parseTokenResp : String → Option TokenExchangeResponse
  parseUserInfo : String → Option UserInfo
  jsonErrMsg : String → String

/-- Outbound network calls, recorded so "no provider call is made" is a
statement about the model. -/
inductive Event where
  | providerCall (config : OAuthProviderConfig) (req : TokenExchangeRequest)
  | userInfoCall (url : String) (idToken : String) (referralCode : Option String)
  deriving DecidableEq, Repr

/-! ## Provider exchange (`lib/oauth-common.ts`) -/

/-- Result of `exchangeCode`: the returned token response, or the
message of the thrown `Error`. -/
inductive ExchangeResult where
  | ok (t : TokenExchangeResponse)
  | err (msg : String)
  deriving DecidableEq, Repr

/-- `true` iff the exchange threw. -/
def ExchangeResult.isErr : ExchangeResult → Bool
  | .ok _ => false
  | .err _ => true

/-- `exchangeCode` from `lib/oauth-common.ts`, with the outbound POST
recorded as an event.  Field checks, the 2xx test, the error-body
parse fallback, and the `access_token` / `id_token` validation follow
the source line by line; an unparseable success body rethrows the
platform `JSON.parse` error (`w.jsonErrMsg`). -/
def exchangeCode (req : TokenExchangeRequest) (env : Env)
    (config : OAuthProviderConfig) (w : World) :
    ExchangeResult × List Event :=
  let clientId := env.get config.clientIdKey
  let clientSecret := env.get config.clientSecretKey
  if clientId = "" then
    (.err (config.clientIdKey.keyName ++ " is not configured"), [])
  else if clientSecret = "" then
    (.err (config.clientSecretKey.keyName ++ " is not configured"), [])
  else
    let ev := [Event.providerCall config req]
    let resp := w.providerResponse
    let body := resp.body
    if !resp.isOk then
      match w.parseOAuthError body with
      | some e =>
          (.err ("Token exchange failed: " ++ e.error ++ " - " ++
            e.error_description), ev)
      | none =>
          (.err ("Token exchange failed with status " ++
            Nat.repr resp.status ++ ": " ++ body), ev)
    else
      match w.parseTokenResp body with
      | none => (.err (w.jsonErrMsg body), ev)
      | some t =>
          if t.access_token = "" then
            (.err "access_token missing in token response", ev)
          else if t.id_token = "" then
            (.err "id_token missing in token response", ev)
          else (.ok t, ev)

/-! ## Enrichment client (`lib/user-info.ts`) -/

/-- Result of `fetchUserInfo`: the parsed blob or the thrown message. -/
inductive FetchUserInfoResult where
  | ok (u : UserInfo)
  | err (msg : String)
  deriving DecidableEq, Repr

/-- `fetchUserInfo` from `lib/user-info.ts`, with the outbound GET
recorded. -/
def fetchUserInfo (idToken : String) (env : Env)
    (referralCode : Option String) (w : World) :
    FetchUserInfoResult × List Event :=
  let url := env.USER_INFO_SERVICE_URL ++ "/user/info"
  let ev := [Event.userInfoCall url idToken referralCode]
  let resp := w.userInfoResponse
  if !resp.isOk then
    (.err ("User info request failed with status " ++
      Nat.repr resp.status ++ ": " ++ resp.body), ev)
  else
    match w.parseUserInfo resp.body with
    | some u => (.ok u, ev)
    | none => (.err ("Failed to parse user info response: " ++ resp.body), ev)

/-! ## Orchestrator (`src/index.ts`) -/

/-- `s.toLowerCase()` (ASCII; no provider tag uses non-ASCII). -/
def jsToLower (s : String) : String :=
  String.mk (s.data.map Char.toLower)

/-- Body of a worker response, as far as the claims observe it:
`jsonResponse` is called with either an `{error: msg}` object, the
token payload, or the health object; `handleCors` returns a null
body. -/
inductive RespBody where
  | errorBody (message : String)
  | tokenBody (t : TokenExchangeResponse)
  | healthBody (environment : String)
  | emptyBody
  deriving DecidableEq, Repr

/-- A worker response: HTTP status plus body.  (CORS headers are not
modelled; no claim in this development concerns them.) -/
structure HttpReply where
  status : Nat
  body : RespBody
  deriving DecidableEq, Repr

/-- `request.headers.get('x-referral-code') || undefined`: the header
value, with `null` and `""` both collapsing to `undefined`. -/
def referralOf : Option String → Option String
  | some s => if s = "" then none else some s
  | none => none

/-- Lines 113-130 of `src/index.ts`: everything after the provider
switch — the `id_token` presence check, the enrichment call with its
inner try/catch, the 200 response, and the outer catch turning an
exchange error into 400 "Token exchange failed". -/
def afterExchange (exr : ExchangeResult × List Event) (env : Env)
    (referralHeader : Option String) (w : World) : HttpReply × List Event :=
  match exr with
  | (.err _, ev) => (⟨400, .errorBody "Token exchange failed"⟩, ev)
  | (.ok t, ev) =>
      if t.id_token = "" then
        (⟨400, .errorBody "Token exchange failed"⟩, ev)
      else
        match fetchUserInfo t.id_token env (referralOf referralHeader) w with
        | (.ok u, ev2) =>
            (⟨200, .tokenBody { t with user_info := some u }⟩, ev ++ ev2)
        | (.err _, ev2) =>
            (⟨500, .errorBody "Failed to retrieve user information"⟩, ev ++ ev2)

/-- `handleTokenExchange` from `src/index.ts`.  `bodyOpt` is the result
of `request.json()` (`none` = the body was not valid JSON);
`referralHeader` is the raw `x-referral-code` header. -/
def handleTokenExchange (bodyOpt : Option TokenExchangeRequest) (env : Env)
    (referralHeader : Option String) (w : World) : HttpReply × List Event :=
  match bodyOpt with
  | none => (⟨400, .errorBody "Invalid request body"⟩, [])
  | some req =>
      if req.code = "" then (⟨400, .errorBody "code is required"⟩, [])
      else if req.redirect_uri = "" then
        (⟨400, .errorBody "redirect_uri is required"⟩, [])
      else if req.provider = "" then
        (⟨400, .errorBody "provider is required"⟩, [])
      else if validateRedirectUri req.redirect_uri env.ALLOWED_REDIRECT_URIS
          = false then
        (⟨400, .errorBody "invalid redirect_uri"⟩, [])
      else
        let provider := jsToLower req.provider
        if provider = "google" then
          afterExchange (exchangeCode req env googleConfig w) env
            referralHeader w
        else if provider = "outlook" ∨ provider = "microsoft" then
          afterExchange (exchangeCode req env microsoftConfig w) env
            referralHeader w
        else
          (⟨400, .errorBody ("Unsupported OAuth provider: " ++ provider)⟩, [])

/-- The provider switch of `handleTokenExchange`, as a map from the
lowercased provider string to the configuration it dispatches to
(used only to state claims about dispatch). -/
def dispatchConfig (provider : String) : Option OAuthProviderConfig :=
  if provider = "google" then some googleConfig
  else if provider = "outlook" ∨ provider = "microsoft" then
    some microsoftConfig
  else none

/-- `stripRoutePrefix` from `src/index.ts` (renamed): drop a leading
`/api-staging` or `/api`, substituting `/` for an emptied path. -/
def stripRoutePfx (pathname : String) : String :=
  if "/api-staging".data.isPrefixOf pathname.data then
    let s := String.mk (pathname.data.drop 12)
    if s = "" then "/" else s
  else if "/api".data.isPrefixOf pathname.data then
    let s := String.mk (pathname.data.drop 4)
    if s = "" then "/" else s
  else pathname

/-- The worker's `fetch` entry point (`src/index.ts`, lines 22-49):
prefix stripping, the OPTIONS preflight, the `/health` route, the
`POST /oauth/token` route, and the 404 fallback.  `handleCors` always
returns 204 with a null body (CORS headers unmodelled). -/
def workerFetch (method : String) (pathname : String)
    (bodyOpt : Option TokenExchangeRequest) (env : Env)
    (referralHeader : Option String) (w : World) : HttpReply × List Event :=
  let p := stripRoutePfx pathname
  if method = "OPTIONS" then (⟨204, .emptyBody⟩, [])
  else if p = "/health" then (⟨200, .healthBody env.ENVIRONMENT⟩, [])
  else if p = "/oauth/token" ∧ method = "POST" then
    handleTokenExchange bodyOpt env referralHeader w
  else (⟨404, .errorBody "Not found"⟩, [])

/-! ## Specification-side definitions

These are written from the words of the specification / claims, to be
compared with the source-derived definitions above. -/

/-- `true` iff the enrichment call threw. -/
def FetchUserInfoResult.isErr : FetchUserInfoResult → Bool
  | .ok _ => false
  | .err _ => true

/-- Claim C6's failure condition for the exchange routine, transcribed
from the claim: empty client-id or client-secret, non-2xx provider
status, unparseable success body, or a parsed body lacking
`access_token` or `id_token`. -/
def exchangeFails (env : Env) (config : OAuthProviderConfig) (w : World) :
    Bool :=
  decide (env.get config.clientIdKey = "") ||
  decide (env.get config.clientSecretKey = "") ||
  !w.providerResponse.isOk ||
  (match w.parseTokenResp w.providerResponse.body with
   | none => true
   | some t => decide (t.access_token = "") || decide (t.id_token = ""))

/-- Claim C3's described matcher, word for word: every character of the
pattern other than `*` is literal, and each `*` matches zero or more of
ANY character; anchored at both ends. -/
def globAny : List Char → List Char → Bool
  | [], cs => cs.isEmpty
  | p :: ps, cs =>
      if p = '*' then
        (List.range (cs.length + 1)).any (fun k => globAny ps (cs.drop k))
      else
        match cs with
        | [] => false
        | c :: cs' => p == c && globAny ps cs'

/-- The matcher with JavaScript `.` semantics: like `globAny` but `*`
matches zero or more characters none of which is a line terminator.
The amended claim C3 equates `matchesPattern` with this. -/
def globNoLT : List Char → List Char → Bool
  | [], cs => cs.isEmpty
  | p :: ps, cs =>
      if p = '*' then
        (List.range (cs.length + 1)).any
          (fun k =>
            (cs.take k).all (fun c => !isLineTerm c) &&
            globNoLT ps (cs.drop k))
      else
        match cs with
        | [] => false
        | c :: cs' => p == c && globNoLT ps cs'

/-- The two-character regex chunk one pattern character compiles to
after escaping and `\*` → `.*` replacement. -/
def regexChunk (c : Char) : List Char :=
  if c = '*' then ['.', '*']
  else if isRegexMeta c then ['\\', c] else [c]

/-- Concatenated chunks of a whole pattern. -/
def regexChunks : List Char → List Char
  | [] => []
  | c :: cs => regexChunk c ++ regexChunks cs

/-- The regex piece one pattern character denotes. -/
def patTok (c : Char) : RPiece :=
  if c = '*' then RPiece.star RAtom.dot else RPiece.once (RAtom.lit c)

/-- The compiled piece list of a whole pattern. -/
def patToks (ps : List Char) : List RPiece := ps.map patTok

/-- The lexer tokens one pattern character's chunk produces. -/
def chunkToks (c : Char) : List RTokn :=
  if c = '*' then [RTokn.atom RAtom.dot, RTokn.starMark]
  else [RTokn.atom (RAtom.lit c)]

/-- The lexer tokens of a whole pattern's chunks. -/
def lexToks : List Char → List RTokn
  | [] => []
  | c :: cs => chunkToks c ++ lexToks cs

/-! ## Concrete fixtures used by witnesses and counterexamples -/

/-- A sample environment: one allowlist entry, all credentials set. -/
def sampleEnv : Env :=
  { ENVIRONMENT := "test"
    USER_INFO_SERVICE_URL := "https://backend.test"
    ALLOWED_REDIRECT_URIS := "https://app.example.com/*"
    GOOGLE_OAUTH_CLIENT_ID := "gid"
    GOOGLE_OAUTH_CLIENT_SECRET := "gsec"
    MICROSOFT_OAUTH_CLIENT_ID := "mid"
    MICROSOFT_OAUTH_CLIENT_SECRET := "msec" }

/-- A sample provider token payload. -/
def sampleToken : TokenExchangeResponse :=
  { access_token := "at"
    token_type := "Bearer"
    expires_in := 3600
    scope := "email"
    refresh_token := none
    id_token := "idt"
    user_info := none }

/-- A sample world where both outbound calls succeed and parse. -/
def sampleWorld : World :=
  { providerResponse := ⟨200, "PBODY"⟩
    userInfoResponse := ⟨200, "UBODY"⟩
    parseOAuthError := fun _ => none
    parseTokenResp := fun b => if b = "PBODY" then some sampleToken else none
    parseUserInfo := fun b => if b = "UBODY" then some "profile" else none
    jsonErrMsg := fun b => "Unexpected token in JSON: " ++ b }

/-- A world whose enrichment backend fails with a 503. -/
def enrichFailWorld : World :=
  { sampleWorld with userInfoResponse := ⟨503, "oops"⟩ }

/-- A well-formed request whose redirect URI is allowlisted. -/
def sampleReq : TokenExchangeRequest :=
  { code := "c"
    redirect_uri := "https://app.example.com/"
    code_verifier := none
    provider := "Google" }

/-- A well-formed request with a non-allowlisted redirect URI. -/
def attackerReq : TokenExchangeRequest :=
  { sampleReq with redirect_uri := "https://attacker.example/" }

/-- A well-formed request with a mixed-case Outlook provider tag. -/
def outlookReq : TokenExchangeRequest :=
  { sampleReq with provider := "OutLook" }

/-! ## Theorems -/

/-- C10: both validator entry points reject the empty string before
consulting any pattern: for every allowlist string,
`validateRedirectUri` returns `false` when the redirect URI is empty,
and `isAllowedOrigin` returns `false` when the origin is empty. -/
theorem c10_empty_rejected (allowedUris : String) :
    validateRedirectUri "" allowedUris = false ∧
    isAllowedOrigin "" allowedUris = false := by
  constructor
  · simp [validateRedirectUri]
  · simp [isAllowedOrigin]

/-- C9: matching is deterministic across the pattern cache: for every
initial cache, uri and pattern, running the matcher a second time on
the cache state left by the first run returns the same boolean; and a
run starting from the empty cache agrees with the cacheless
`matchesPattern`. -/
theorem c9_cache_deterministic (cache : RegexCache) (uri pattern : String) :
    (matchesPatternCached (matchesPatternCached cache uri pattern).2
        uri pattern).1
      = (matchesPatternCached cache uri pattern).1 ∧
    (matchesPatternCached [] uri pattern).1 = matchesPattern uri pattern := by
  constructor
  · cases h : cache.lookup pattern with
    | some r => simp [matchesPatternCached, h]
    | none =>
        cases hp : parseRegex (buildRegexPattern pattern) with
        | some r => simp [matchesPatternCached, h, hp, List.lookup]
        | none => simp [matchesPatternCached, h, hp]
  · cases hp : parseRegex (buildRegexPattern pattern) with
    | some r => simp [matchesPatternCached, matchesPattern, hp, List.lookup]
    | none => simp [matchesPatternCached, matchesPattern, hp, List.lookup]

/-- C2 (evidence for the code bug): the pattern
`https://*.example.com/callback` does NOT reduce to the origin
`https://*.example.com`.  URL parsing lowercases the host, so the
uppercase `WILDCARD` placeholder is never replaced back and the
reduction yields the literal origin `https://wildcard.example.com`;
consequently `isAllowedOrigin` rejects `https://app.example.com`
(which the wildcard origin would have accepted, last conjunct), along
with the scheme and port variants. -/
theorem c2_wildcard_lost :
    extractOrigin "https://*.example.com/callback"
      = some "https://wildcard.example.com" ∧
    isAllowedOrigin "https://app.example.com"
      "https://*.example.com/callback" = false ∧
    isAllowedOrigin "http://app.example.com"
      "https://*.example.com/callback" = false ∧
    isAllowedOrigin "https://app.example.com:8080"
      "https://*.example.com/callback" = false ∧
    matchesPattern "https://app.example.com" "https://*.example.com" = true := by
  decide

/-- C8 (amended): requests that are not OPTIONS, do not strip to
`/health`, and are not `POST` on `/oauth/token` get the 404
`Not found` fallback with no outbound call; and `/health` answers 200
to EVERY non-OPTIONS method (the source checks only the path), not
only to GET. -/
theorem c8_routes (method pathname : String)
    (bodyOpt : Option TokenExchangeRequest) (env : Env)
    (hdr : Option String) (w : World) :
    (method ≠ "OPTIONS" → stripRoutePfx pathname ≠ "/health" →
      ¬(stripRoutePfx pathname = "/oauth/token" ∧ method = "POST") →
      workerFetch method pathname bodyOpt env hdr w
        = (⟨404, RespBody.errorBody "Not found"⟩, [])) ∧
    (method ≠ "OPTIONS" → stripRoutePfx pathname = "/health" →
      (workerFetch method pathname bodyOpt env hdr w).1
        = ⟨200, RespBody.healthBody env.ENVIRONMENT⟩) := by
  constructor
  · intro h1 h2 h3
    simp [workerFetch, h1, h2, h3]
  · intro h1 h2
    simp [workerFetch, h1, h2]

/-- C8 witness: a GET on an unknown path is a 404 with no outbound
call. -/
theorem c8_routes_witness :
    workerFetch "GET" "/nope" none sampleEnv none sampleWorld
      = (⟨404, RespBody.errorBody "Not found"⟩, []) :=
  (c8_routes "GET" "/nope" none sampleEnv none sampleWorld).1
    (by decide) (by decide) (by decide)

/-- C8 counterexample: `POST /health` is not one of the claim's three
routes (OPTIONS, GET `/health`, POST `/oauth/token`), so per the claim
it should get a 404; the code answers 200 because the `/health` branch
never checks the method. -/
theorem c8_counterexample :
    (workerFetch "POST" "/health" none sampleEnv none sampleWorld).1
      = ⟨200, RespBody.healthBody "test"⟩ ∧
    (workerFetch "POST" "/health" none sampleEnv none sampleWorld).1.status
      ≠ 404 := by
  decide

/-- C4: a well-formed exchange request (all three fields present) whose
redirect URI matches no allowlist pattern is answered with
400 `invalid redirect_uri`, and the empty event trace shows no outbound
provider call is made. -/
theorem c4_disallowed_redirect (req : TokenExchangeRequest) (env : Env)
    (hdr : Option String) (w : World)
    (h1 : req.code ≠ "") (h2 : req.redirect_uri ≠ "") (h3 : req.provider ≠ "")
    (h4 : ∀ p ∈ allowlistPatterns env.ALLOWED_REDIRECT_URIS,
        matchesPattern req.redirect_uri p = false) :
    handleTokenExchange (some req) env hdr w
      = (⟨400, RespBody.errorBody "invalid redirect_uri"⟩, []) := by
  have hv : validateRedirectUri req.redirect_uri env.ALLOWED_REDIRECT_URIS
      = false := by
    simp only [validateRedirectUri, if_neg h2, List.any_eq_false]
    intro p hp
    simp [h4 p hp]
  simp [handleTokenExchange, h1, h2, h3, hv]

/-- C4 witness: the attacker redirect against the sample allowlist. -/
theorem c4_disallowed_redirect_witness :
    handleTokenExchange (some attackerReq) sampleEnv none sampleWorld
      = (⟨400, RespBody.errorBody "invalid redirect_uri"⟩, []) :=
  c4_disallowed_redirect attackerReq sampleEnv none sampleWorld
    (by decide) (by decide) (by decide) (by decide)

/-- Helper: a successful `exchangeCode` run returned the parsed body,
whose `access_token` and `id_token` passed the non-emptiness checks. -/
theorem exchangeCode_ok_shape (req : TokenExchangeRequest) (env : Env)
    (config : OAuthProviderConfig) (w : World) (t : TokenExchangeResponse)
    (ev : List Event)
    (h : exchangeCode req env config w = (ExchangeResult.ok t, ev)) :
    t.access_token ≠ "" ∧ t.id_token ≠ "" ∧
    w.parseTokenResp w.providerResponse.body = some t := by
  simp only [exchangeCode] at h
  repeat' split at h
  all_goals simp_all

/-- Helper: the enrichment call throws whenever the backend status is
not 2xx or its body does not parse as JSON. -/
theorem fetchUserInfo_err_shape (idt : String) (env : Env)
    (rc : Option String) (w : World)
    (h : w.userInfoResponse.isOk = false ∨
      w.parseUserInfo w.userInfoResponse.body = none) :
    (fetchUserInfo idt env rc w).1.isErr = true := by
  rcases h with h | h
  · simp [fetchUserInfo, h, FetchUserInfoResult.isErr]
  · cases hok : w.userInfoResponse.isOk with
    | false => simp [fetchUserInfo, hok, FetchUserInfoResult.isErr]
    | true => simp [fetchUserInfo, hok, h, FetchUserInfoResult.isErr]

/-- Helper: once the body parses, the three fields are present and the
redirect URI validates, `handleTokenExchange` is exactly the provider
dispatch described by `dispatchConfig`. -/
theorem handle_dispatch (req : TokenExchangeRequest) (env : Env)
    (hdr : Option String) (w : World)
    (h1 : req.code ≠ "") (h2 : req.redirect_uri ≠ "") (h3 : req.provider ≠ "")
    (h4 : validateRedirectUri req.redirect_uri env.ALLOWED_REDIRECT_URIS
      = true) :
    handleTokenExchange (some req) env hdr w
      = match dispatchConfig (jsToLower req.provider) with
        | some cfg => afterExchange (exchangeCode req env cfg w) env hdr w
        | none => (⟨400, RespBody.errorBody
            ("Unsupported OAuth provider: " ++ jsToLower req.provider)⟩, []) := by
  simp only [handleTokenExchange, dispatchConfig, if_neg h1, if_neg h2,
    if_neg h3, h4]
  by_cases hg : jsToLower req.provider = "google"
  · simp [hg]
  · by_cases hm : jsToLower req.provider = "outlook" ∨
        jsToLower req.provider = "microsoft"
    · simp [hg, hm]
    · simp [hg, hm]

/-- C7: provider dispatch lowercases the provider string; any casing of
"outlook" or "microsoft" dispatches to the single Microsoft
configuration (endpoint included), "google" to the Google one, and any
other value is answered 400 `Unsupported OAuth provider: {provider}`
with no outbound call. -/
theorem c7_provider_dispatch (req : TokenExchangeRequest) (env : Env)
    (hdr : Option String) (w : World)
    (h1 : req.code ≠ "") (h2 : req.redirect_uri ≠ "") (h3 : req.provider ≠ "")
    (h4 : validateRedirectUri req.redirect_uri env.ALLOWED_REDIRECT_URIS
      = true) :
    ((jsToLower req.provider = "outlook" ∨
        jsToLower req.provider = "microsoft") →
      handleTokenExchange (some req) env hdr w
        = afterExchange (exchangeCode req env microsoftConfig w) env hdr w) ∧
    (jsToLower req.provider = "google" →
      handleTokenExchange (some req) env hdr w
        = afterExchange (exchangeCode req env googleConfig w) env hdr w) ∧
    (dispatchConfig (jsToLower req.provider) = none →
      handleTokenExchange (some req) env hdr w
        = (⟨400, RespBody.errorBody
            ("Unsupported OAuth provider: " ++ jsToLower req.provider)⟩, [])) := by
  refine ⟨?_, ?_, ?_⟩ <;> intro hp <;>
    rw [handle_dispatch req env hdr w h1 h2 h3 h4]
  · have hd : dispatchConfig (jsToLower req.provider) = some microsoftConfig := by
      rcases hp with hp | hp <;> rw [hp] <;> simp [dispatchConfig]
    rw [hd]
  · rw [hp]; simp [dispatchConfig]
  · rw [hp]

/-- C7 witness: the mixed-case "OutLook" request dispatches to the
Microsoft configuration. -/
theorem c7_provider_dispatch_witness :
    handleTokenExchange (some outlookReq) sampleEnv none sampleWorld
      = afterExchange (exchangeCode outlookReq sampleEnv microsoftConfig
          sampleWorld) sampleEnv none sampleWorld :=
  (c7_provider_dispatch outlookReq sampleEnv none sampleWorld
    (by decide) (by decide) (by decide) (by decide)).1 (Or.inl (by decide))

/-- C5: when the provider exchange succeeds but the enrichment call
fails (backend non-2xx or unparseable body), the overall reply is a 500
`Failed to retrieve user information` error object, which carries no
token data. -/
theorem c5_enrichment_failure (req : TokenExchangeRequest) (env : Env)
    (hdr : Option String) (w : World) (cfg : OAuthProviderConfig)
    (t : TokenExchangeResponse) (ev : List Event)
    (h1 : req.code ≠ "") (h2 : req.redirect_uri ≠ "") (h3 : req.provider ≠ "")
    (h4 : validateRedirectUri req.redirect_uri env.ALLOWED_REDIRECT_URIS
      = true)
    (hd : dispatchConfig (jsToLower req.provider) = some cfg)
    (hex : exchangeCode req env cfg w = (ExchangeResult.ok t, ev))
    (hen : w.userInfoResponse.isOk = false ∨
      w.parseUserInfo w.userInfoResponse.body = none) :
    (handleTokenExchange (some req) env hdr w).1
      = ⟨500, RespBody.errorBody "Failed to retrieve user information"⟩ := by
  rw [handle_dispatch req env hdr w h1 h2 h3 h4, hd]
  dsimp only
  have hid : t.id_token ≠ "" :=
    (exchangeCode_ok_shape req env cfg w t ev hex).2.1
  have hfe : (fetchUserInfo t.id_token env (referralOf hdr) w).1.isErr
      = true := fetchUserInfo_err_shape _ _ _ _ hen
  rw [hex]
  simp only [afterExchange, if_neg hid]
  cases hf : fetchUserInfo t.id_token env (referralOf hdr) w with
  | mk r ev2 =>
      cases r with
      | ok u => rw [hf] at hfe; simp [FetchUserInfoResult.isErr] at hfe
      | err m => simp [hf]

/-- C5 witness: the sample request against the world whose enrichment
backend answers 503. -/
theorem c5_enrichment_failure_witness :
    (handleTokenExchange (some sampleReq) sampleEnv none enrichFailWorld).1
      = ⟨500, RespBody.errorBody "Failed to retrieve user information"⟩ :=
  c5_enrichment_failure sampleReq sampleEnv none enrichFailWorld googleConfig
    sampleToken [Event.providerCall googleConfig sampleReq]
    (by decide) (by decide) (by decide) (by decide) (by decide) (by decide)
    (Or.inl (by decide))

/-- C6: the exchange routine fails exactly under the claim's four
conditions (empty resolved credential, non-2xx provider status,
unparseable body, parsed body lacking `access_token` or `id_token`),
otherwise returns the parsed token response; and on a non-2xx status
the error message carries the provider's `error`/`error_description`
when the body parses as JSON, else the raw body. -/
theorem c6_exchange_characterization (req : TokenExchangeRequest) (env : Env)
    (config : OAuthProviderConfig) (w : World) :
    ((exchangeCode req env config w).1.isErr = exchangeFails env config w) ∧
    (exchangeFails env config w = false →
      ∀ t, w.parseTokenResp w.providerResponse.body = some t →
        (exchangeCode req env config w).1 = ExchangeResult.ok t) ∧
    (env.get config.clientIdKey ≠ "" → env.get config.clientSecretKey ≠ "" →
      w.providerResponse.isOk = false →
      ((∀ e, w.parseOAuthError w.providerResponse.body = some e →
          (exchangeCode req env config w).1
            = ExchangeResult.err ("Token exchange failed: " ++ e.error ++
                " - " ++ e.error_description)) ∧
       (w.parseOAuthError w.providerResponse.body = none →
          (exchangeCode req env config w).1
            = ExchangeResult.err ("Token exchange failed with status " ++
                Nat.repr w.providerResponse.status ++ ": " ++
                w.providerResponse.body)))) := by
  refine ⟨?_, ?_, ?_⟩
  · by_cases hc1 : env.get config.clientIdKey = ""
    · simp [exchangeCode, exchangeFails, hc1, ExchangeResult.isErr]
    · by_cases hc2 : env.get config.clientSecretKey = ""
      · simp [exchangeCode, exchangeFails, hc1, hc2, ExchangeResult.isErr]
      · cases hok : w.providerResponse.isOk with
        | false =>
            cases he : w.parseOAuthError w.providerResponse.body with
            | none =>
                simp [exchangeCode, exchangeFails, hc1, hc2, hok, he,
                  ExchangeResult.isErr]
            | some e =>
                simp [exchangeCode, exchangeFails, hc1, hc2, hok, he,
                  ExchangeResult.isErr]
        | true =>
            cases hp : w.parseTokenResp w.providerResponse.body with
            | none =>
                simp [exchangeCode, exchangeFails, hc1, hc2, hok, hp,
                  ExchangeResult.isErr]
            | some t =>
                by_cases ha : t.access_token = ""
                · simp [exchangeCode, exchangeFails, hc1, hc2, hok, hp, ha,
                    ExchangeResult.isErr]
                · by_cases hi : t.id_token = ""
                  · simp [exchangeCode, exchangeFails, hc1, hc2, hok, hp, ha,
                      hi, ExchangeResult.isErr]
                  · simp [exchangeCode, exchangeFails, hc1, hc2, hok, hp, ha,
                      hi, ExchangeResult.isErr]
  · intro hf t hp
    rw [exchangeFails] at hf
    simp only [hp, Bool.or_eq_false_iff, decide_eq_false_iff_not,
      Bool.not_eq_false'] at hf
    obtain ⟨⟨⟨hc1, hc2⟩, hok⟩, ha, hi⟩ := hf
    simp [exchangeCode, hc1, hc2, hok, hp, ha, hi]
  · intro hc1 hc2 hok
    constructor
    · intro e he
      simp [exchangeCode, hc1, hc2, hok, he]
    · intro he
      simp [exchangeCode, hc1, hc2, hok, he]

/-- C6 witness: in the all-good sample world the exchange returns the
parsed sample token. -/
theorem c6_exchange_characterization_witness :
    (exchangeCode sampleReq sampleEnv googleConfig sampleWorld).1
      = ExchangeResult.ok sampleToken :=
  (c6_exchange_characterization sampleReq sampleEnv googleConfig
    sampleWorld).2.1 (by decide) sampleToken (by decide)

/-- Helper for C1: whatever the exchange outcome, the post-exchange
continuation either fails with an error object and a non-200 status, or
answers 200 with a token body whose tokens are non-empty and whose
profile was filled in by a successful enrichment call. -/
theorem afterExchange_invariant (exr : ExchangeResult × List Event) (env : Env)
    (hdr : Option String) (w : World)
    (hok : ∀ t ev, exr = (ExchangeResult.ok t, ev) →
      t.access_token ≠ "" ∧ t.id_token ≠ "") :
    ((afterExchange exr env hdr w).1.status ≠ 200 ∧
      ∃ m, (afterExchange exr env hdr w).1.body = RespBody.errorBody m) ∨
    ((afterExchange exr env hdr w).1.status = 200 ∧
      ∃ t u, (afterExchange exr env hdr w).1.body = RespBody.tokenBody t ∧
        t.access_token ≠ "" ∧ t.id_token ≠ "" ∧ t.user_info = some u ∧
        (fetchUserInfo t.id_token env (referralOf hdr) w).1
          = FetchUserInfoResult.ok u) := by
  obtain ⟨r, ev⟩ := exr
  cases r with
  | err m => left; exact ⟨by simp [afterExchange], "Token exchange failed",
      by simp [afterExchange]⟩
  | ok t =>
      have ht := hok t ev rfl
      by_cases hid : t.id_token = ""
      · left
        exact ⟨by simp [afterExchange, hid], "Token exchange failed",
          by simp [afterExchange, hid]⟩
      · cases hf : fetchUserInfo t.id_token env (referralOf hdr) w with
        | mk r2 ev2 =>
            cases r2 with
            | ok u =>
                right
                refine ⟨by simp [afterExchange, hid, hf],
                  { t with user_info := some u }, u,
                  by simp [afterExchange, hid, hf], ht.1, hid, rfl, ?_⟩
                rw [show ({ t with user_info := some u } :
                    TokenExchangeResponse).id_token = t.id_token from rfl, hf]
            | err m =>
                left
                exact ⟨by simp [afterExchange, hid, hf],
                  "Failed to retrieve user information",
                  by simp [afterExchange, hid, hf]⟩

/-- C1: the orchestrator never surfaces a token payload except as a 200
whose `access_token` and `id_token` are non-empty and whose `user_info`
was populated by a successful enrichment call; every other outcome is
an error object with a non-200 status. -/
theorem c1_success_invariant (bodyOpt : Option TokenExchangeRequest)
    (env : Env) (hdr : Option String) (w : World) :
    ((handleTokenExchange bodyOpt env hdr w).1.status ≠ 200 ∧
      ∃ m, (handleTokenExchange bodyOpt env hdr w).1.body
        = RespBody.errorBody m) ∨
    ((handleTokenExchange bodyOpt env hdr w).1.status = 200 ∧
      ∃ t u, (handleTokenExchange bodyOpt env hdr w).1.body
          = RespBody.tokenBody t ∧
        t.access_token ≠ "" ∧ t.id_token ≠ "" ∧ t.user_info = some u ∧
        (fetchUserInfo t.id_token env (referralOf hdr) w).1
          = FetchUserInfoResult.ok u) := by
  cases bodyOpt with
  | none =>
      left
      exact ⟨by simp [handleTokenExchange], "Invalid request body",
        by simp [handleTokenExchange]⟩
  | some req =>
      by_cases h1 : req.code = ""
      · left
        exact ⟨by simp [handleTokenExchange, h1], "code is required",
          by simp [handleTokenExchange, h1]⟩
      · by_cases h2 : req.redirect_uri = ""
        · left
          exact ⟨by simp [handleTokenExchange, h1, h2],
            "redirect_uri is required",
            by simp [handleTokenExchange, h1, h2]⟩
        · by_cases h3 : req.provider = ""
          · left
            exact ⟨by simp [handleTokenExchange, h1, h2, h3],
              "provider is required",
              by simp [handleTokenExchange, h1, h2, h3]⟩
          · by_cases h4 : validateRedirectUri req.redirect_uri
                env.ALLOWED_REDIRECT_URIS = true
            · rw [handle_dispatch req env hdr w h1 h2 h3 h4]
              cases hd : dispatchConfig (jsToLower req.provider) with
              | some cfg =>
                  dsimp only
                  exact afterExchange_invariant _ env hdr w
                    (fun t ev h =>
                      ⟨(exchangeCode_ok_shape req env cfg w t ev h).1,
                       (exchangeCode_ok_shape req env cfg w t ev h).2.1⟩)
              | none =>
                  left
                  exact ⟨by simp, "Unsupported OAuth provider: " ++
                    jsToLower req.provider, by simp⟩
            · have h4' : validateRedirectUri req.redirect_uri
                  env.ALLOWED_REDIRECT_URIS = false := by
                cases hb : validateRedirectUri req.redirect_uri
                    env.ALLOWED_REDIRECT_URIS
                · rfl
                · exact absurd hb h4
              left
              exact ⟨by simp [handleTokenExchange, h1, h2, h3, h4'],
                "invalid redirect_uri",
                by simp [handleTokenExchange, h1, h2, h3, h4']⟩

/-- The escaped pattern never begins with a bare `*` (every `*` is
preceded by its escaping backslash). -/
theorem escList_head_ne_star (cs : List Char) (d : Char) (t : List Char)
    (h : escList cs = d :: t) : d ≠ '*' := by
  cases cs with
  | nil => simp [escList] at h
  | cons c cs' =>
      simp only [escList, escapeRegexChar] at h
      by_cases hm : isRegexMeta c
      · rw [if_pos hm] at h
        cases h
        decide
      · rw [if_neg hm] at h
        cases h
        intro hc
        subst hc
        exact hm (by decide)

/-- The `\*` → `.*` replacement walks over any character whose
successor is not a bare `*`. -/
theorem replaceEscStar_cons (c : Char) (t : List Char)
    (h : ∀ d t', t = d :: t' → d ≠ '*') :
    replaceEscStar (c :: t) = c :: replaceEscStar t := by
  cases t with
  | nil => rfl
  | cons d t' =>
      have hd : d ≠ '*' := h d t' rfl
      simp [replaceEscStar, hd]

/-- Escaping then replacing `\*` yields exactly the per-character
chunks. -/
theorem replaceEscStar_escList (ps : List Char) :
    replaceEscStar (escList ps) = regexChunks ps := by
  induction ps with
  | nil => rfl
  | cons c cs ih =>
      by_cases hc : c = '*'
      · subst hc
        have : escList ('*' :: cs) = '\\' :: '*' :: escList cs := by
          simp [escList, escapeRegexChar, show isRegexMeta '*' = true
            from by decide]
        rw [this]
        simp only [replaceEscStar, regexChunks, regexChunk]
        simp [ih]
      · by_cases hm : isRegexMeta c
        · have h1 : escList (c :: cs) = '\\' :: c :: escList cs := by
            simp [escList, escapeRegexChar, hm]
          rw [h1, replaceEscStar_cons '\\' (c :: escList cs)
              (by intro d t' hdt; cases hdt; exact hc),
            replaceEscStar_cons c (escList cs) (escList_head_ne_star cs),
            ih, regexChunks, regexChunk, if_neg hc, if_pos hm]
          rfl
        · have h1 : escList (c :: cs) = c :: escList cs := by
            simp [escList, escapeRegexChar, hm]
          rw [h1, replaceEscStar_cons c (escList cs)
              (escList_head_ne_star cs),
            ih, regexChunks, regexChunk, if_neg hc, if_neg hm]
          rfl

/-- The lexer turns the chunk string of a pattern into its token
list. -/
theorem lexRegex_regexChunks (ps : List Char) :
    lexRegex (regexChunks ps) = some (lexToks ps) := by
  induction ps with
  | nil => rfl
  | cons c cs ih =>
      by_cases hc : c = '*'
      · subst hc
        have hinner : lexRegex ('*' :: regexChunks cs)
            = some (RTokn.starMark :: lexToks cs) := by
          rw [lexRegex.eq_def]
          simp [ih]
        simp only [regexChunks, regexChunk, if_pos rfl, List.cons_append,
          List.nil_append]
        rw [lexRegex.eq_def]
        simp [hinner, chunkToks, lexToks]
      · by_cases hm : isRegexMeta c
        · simp only [regexChunks, regexChunk, if_neg hc, if_pos hm,
            List.cons_append, List.nil_append]
          rw [lexRegex.eq_def]
          simp [hm, ih, chunkToks, lexToks, hc]
        · have hbs : c ≠ '\\' := fun h => hm (h ▸ by decide)
          have hdot : c ≠ '.' := fun h => hm (h ▸ by decide)
          simp only [regexChunks, regexChunk, if_neg hc, if_neg hm,
            List.cons_append, List.nil_append]
          rw [lexRegex.eq_def]
          simp [hbs, hc, hdot, hm, ih, chunkToks, lexToks]

/-- Every chunk token list starts with an atom (never a star mark). -/
theorem lexToks_head_atom (ps : List Char) (x : RTokn) (t : List RTokn)
    (h : lexToks ps = x :: t) : ∃ a, x = RTokn.atom a := by
  cases ps with
  | nil => simp [lexToks] at h
  | cons c cs =>
      simp only [lexToks, chunkToks] at h
      by_cases hc : c = '*'
      · rw [if_pos hc] at h
        cases h
        exact ⟨RAtom.dot, rfl⟩
      · rw [if_neg hc] at h
        cases h
        exact ⟨RAtom.lit c, rfl⟩

/-- Grouping the token list of a pattern yields its piece list. -/
theorem groupPieces_lexToks (ps : List Char) :
    groupPieces (lexToks ps) = some (patToks ps) := by
  induction ps with
  | nil => rfl
  | cons c cs ih =>
      by_cases hc : c = '*'
      · subst hc
        simp only [lexToks, chunkToks, if_pos rfl, List.cons_append,
          List.nil_append]
        simp [groupPieces, ih, patToks, patTok]
      · simp only [lexToks, chunkToks, if_neg hc, List.cons_append,
          List.nil_append]
        cases cs with
        | nil =>
            simp [lexToks, groupPieces, patToks, patTok, hc]
        | cons d ds =>
            cases ht : lexToks (d :: ds) with
            | nil =>
                exfalso
                simp only [lexToks, chunkToks] at ht
                by_cases hd : d = '*'
                · rw [if_pos hd] at ht; cases ht
                · rw [if_neg hd] at ht; cases ht
            | cons x t =>
                obtain ⟨a, ha⟩ := lexToks_head_atom (d :: ds) x t ht
                subst ha
                rw [ht] at ih
                simp only [groupPieces, ih]
                simp [patToks, patTok, hc]

/-- The full compile pipeline of `matchesPattern` (escape, replace,
anchor, `new RegExp`) produces exactly the per-character piece list. -/
theorem parseRegex_build (pattern : String) :
    parseRegex (buildRegexPattern pattern) = some (patToks pattern.data) := by
  simp only [buildRegexPattern, parseRegex]
  rw [List.getLast?_concat, if_pos rfl, List.dropLast_concat,
    replaceEscStar_escList]
  simp only [parsePieces, lexRegex_regexChunks pattern.data, Option.bind_some]
  exact groupPieces_lexToks pattern.data

/-- Matching the compiled piece list is the direct glob semantics with
JavaScript dot (`*` matches any characters except line terminators). -/
theorem piecesMatch_patToks (ps : List Char) :
    ∀ cs, piecesMatch (patToks ps) cs = globNoLT ps cs := by
  induction ps with
  | nil => intro cs; rfl
  | cons c ps' ih =>
      intro cs
      by_cases hc : c = '*'
      · subst hc
        have hg : globNoLT ('*' :: ps') cs
            = (List.range (cs.length + 1)).any
              (fun k => (cs.take k).all (fun d => !isLineTerm d) &&
                globNoLT ps' (cs.drop k)) := by
          rw [globNoLT.eq_def]
          simp
        have hp : piecesMatch (patToks ('*' :: ps')) cs
            = (List.range (cs.length + 1)).any
              (fun k => (cs.take k).all (atomMatches RAtom.dot) &&
                piecesMatch (patToks ps') (cs.drop k)) := by
          have h1 : patToks ('*' :: ps')
              = RPiece.star RAtom.dot :: patToks ps' := by
            simp [patToks, patTok]
          rw [h1]
          rfl
        rw [hp, hg]
        have hfun : (fun k => (cs.take k).all (atomMatches RAtom.dot) &&
              piecesMatch (patToks ps') (cs.drop k))
            = (fun k => (cs.take k).all (fun d => !isLineTerm d) &&
              globNoLT ps' (cs.drop k)) := by
          funext k
          rw [ih (cs.drop k)]
          rfl
        rw [hfun]
      · cases cs with
        | nil =>
            simp only [patToks, List.map_cons, patTok, if_neg hc, piecesMatch,
              globNoLT, if_neg hc]
        | cons d ds =>
            simp only [patToks, List.map_cons, patTok, if_neg hc, piecesMatch,
              globNoLT, if_neg hc, atomMatches]
            rw [show (patToks ps' = List.map patTok ps') from rfl] at ih
            rw [ih ds]

/-- `matchesPattern` equals the direct glob semantics with JavaScript
dot. -/
theorem matchesPattern_eq_globNoLT (uri pattern : String) :
    matchesPattern uri pattern = globNoLT pattern.data uri.data := by
  simp only [matchesPattern, parseRegex_build pattern]
  exact piecesMatch_patToks pattern.data uri.data

/-- A star-free pattern matches exactly its own character list. -/
theorem globNoLT_no_star (ps : List Char) :
    ∀ cs, '*' ∉ ps → (globNoLT ps cs = true ↔ cs = ps) := by
  induction ps with
  | nil =>
      intro cs _
      simp only [globNoLT, List.isEmpty_iff]
  | cons c ps' ih =>
      intro cs hstar
      have hc : c ≠ '*' := fun h => hstar (h ▸ List.mem_cons_self c ps')
      have hps' : '*' ∉ ps' := fun h => hstar (List.mem_cons_of_mem c h)
      cases cs with
      | nil => simp [globNoLT, hc]
      | cons d ds =>
          simp only [globNoLT, if_neg hc, Bool.and_eq_true, beq_iff_eq,
            List.cons.injEq, ih ds hps']
          constructor
          · rintro ⟨h1, h2⟩; exact ⟨h1.symm, h2⟩
          · rintro ⟨h1, h2⟩; exact ⟨h1.symm, h2⟩

/-- C3 counterexample: taking "zero or more of ANY character" at its
word, the pattern `a*b` should match `a<LF>b`, but the compiled
JavaScript regex does not (`.` excludes line terminators), so the
claimed equivalence fails at this input. -/
theorem c3_counterexample :
    ¬(matchesPattern "a\nb" "a*b" = true ↔
      globAny "a*b".data "a\nb".data = true) := by
  decide

/-- C3 (amended): `matchesPattern uri pattern` holds iff `uri` is fully
matched (anchored at both ends) by the pattern with every regex
metacharacter except `*` taken literally and each `*` matching zero or
more of any character EXCEPT the JavaScript line terminators (LF, CR,
U+2028, U+2029); the claim's example consequences hold, and a star-free
pattern matches only the exact literal string. -/
theorem c3_matchesPattern_glob (uri pattern : String) :
    (matchesPattern uri pattern = globNoLT pattern.data uri.data) ∧
    matchesPattern "https://app.example.com/" "https://*.example.com/*"
      = true ∧
    matchesPattern "https://evil.com/" "https://*.example.com/*" = false ∧
    ('*' ∉ pattern.data → (matchesPattern uri pattern = true ↔
      uri = pattern)) := by
  refine ⟨matchesPattern_eq_globNoLT uri pattern, by decide, by decide, ?_⟩
  intro hstar
  rw [matchesPattern_eq_globNoLT uri pattern,
    globNoLT_no_star pattern.data uri.data hstar]
  constructor
  · intro h
    exact String.ext h
  · intro h
    rw [h]

/-- C3 witness: the star-free consequence at a concrete input. -/
theorem c3_matchesPattern_glob_witness :
    matchesPattern "abc" "abc" = true ↔ ("abc" : String) = "abc" :=
  (c3_matchesPattern_glob "abc" "abc").2.2.2 (by decide)

end OAuthWorker
